import Mathlib

/-!
# Verification of the agrisat soil-moisture pipeline

Shallow embedding of the value-producing functions of
`supabase/functions/smap-analysis/index.ts`:

* `processHDF5File`   — binary moisture extraction (BinaryMoistureExtractor)
* `getRegionalSoilMoisture` — deterministic fallback (FallbackEstimator)
* `applyRegionalCharacteristics` — rule table (RegionalClimateAdjuster)

Numbers are modelled exactly: integer seeds as `ℕ`/`ℤ`, binary32 decoding and
bbox arithmetic as `ℚ`, and the final estimate as `ℝ` (the seasonal term uses
`Math.sin`).  JavaScript `NaN` propagation (relevant only for unparseable
dates) is modelled by the wrapper type `JsNum`.
-/

namespace Agrisat

/-! ## String helpers

`String.prototype.toLowerCase` (the source only ever matches ASCII rule
words, so ASCII lowering is the faithful fragment) and
`String.prototype.includes` (substring containment). -/

/-- ASCII lower-casing of one character, as `toLowerCase` acts on A–Z. -/
def lowerChar (c : Char) : Char :=
  if 'A' ≤ c ∧ c ≤ 'Z' then Char.ofNat (c.toNat + 32) else c

/-- Model of `s.toLowerCase()` restricted to ASCII letters. -/
def jsLower (s : String) : String :=
  String.mk (s.toList.map lowerChar)

/-- Model of `s.includes(t)`: `t` occurs as a contiguous substring of `s`. -/
def jsIncludes (s t : String) : Bool :=
  decide (t.toList <:+: s.toList)

/-- Model of `str.split('').reduce((acc, ch) => acc + ch.charCodeAt(0), 0)`:
sum of the character codes of a string (UTF-16 units in JS; identical to
code points on the BMP strings the pipeline handles). -/
def charCodeSum (s : String) : ℕ :=
  (s.toList.map Char.toNat).sum

/-! ## RegionalClimateAdjuster — `applyRegionalCharacteristics`

Every branch of the source has the single shape
`return Math.max(lo, Math.min(hi, baseMoisture * mult));`, so the `if`-chain
is transcribed as a rule lookup `matchRule` returning `(mult, lo, hi)`
followed by one clamp.  The source's `california` and `india` blocks have no
`else`, falling through to the default clamp; that fall-through is written
here by conjoining the region test with each subregion test. -/

/-- The ordered rule table of `applyRegionalCharacteristics`
(index.ts lines 238–319): multiplier, clamp low, clamp high. -/
def matchRule (region subregion : String) : ℚ × ℚ × ℚ :=
  let rl := jsLower region
  let sl := jsLower subregion
  if jsIncludes rl "thailand" || jsIncludes rl "central thailand" then
    if jsIncludes sl "bangkok" then (1.1, 0.15, 0.4)
    else if jsIncludes sl "chao phraya" then (1.2, 0.2, 0.45)
    else (1.0, 0.15, 0.35)
  else if jsIncludes rl "vietnam" || jsIncludes rl "mekong delta" then
    (1.3, 0.25, 0.5)
  else if jsIncludes rl "indonesia" || jsIncludes rl "java island" then
    if jsIncludes sl "west java" then (1.2, 0.25, 0.45)
    else if jsIncludes sl "central java" then (1.1, 0.2, 0.4)
    else (0.9, 0.15, 0.35)
  else if jsIncludes rl "malaysia" || jsIncludes rl "peninsular malaysia" then
    (1.3, 0.25, 0.5)
  else if jsIncludes rl "philippines" || jsIncludes rl "luzon island" then
    if jsIncludes sl "northern luzon" then (1.1, 0.2, 0.45)
    else if jsIncludes sl "central luzon" then (1.0, 0.2, 0.4)
    else (0.95, 0.18, 0.38)
  else if jsIncludes rl "california" && jsIncludes sl "central valley" then
    (1.2, 0.15, 0.4)
  else if jsIncludes rl "california" && jsIncludes sl "southern coast" then
    (0.8, 0.08, 0.25)
  else if jsIncludes rl "india" && jsIncludes sl "punjab" then
    (1.1, 0.2, 0.35)
  else if jsIncludes rl "india" && jsIncludes sl "kerala" then
    (1.3, 0.25, 0.45)
  else if jsIncludes rl "india" && jsIncludes sl "ganges" then
    (1.0, 0.15, 0.35)
  else
    (1, 0.05, 0.45)

/-- Model of `applyRegionalCharacteristics(baseMoisture, region, subregion)`:
the matched rule's `Math.max(lo, Math.min(hi, baseMoisture * mult))`. -/
noncomputable def applyRegionalCharacteristics
    (baseMoisture : ℝ) (region subregion : String) : ℝ :=
  let rule := matchRule region subregion
  max (rule.2.1 : ℝ) (min (rule.2.2 : ℝ) (baseMoisture * (rule.1 : ℝ)))

set_option maxHeartbeats 1000000 in
/-- Every rule's clamp interval is well-formed and contained in
`[0.05, 0.5]`. -/
theorem matchRule_bounds (region subregion : String) :
    (5 : ℚ)/100 ≤ (matchRule region subregion).2.1 ∧
    (matchRule region subregion).2.1 ≤ (matchRule region subregion).2.2 ∧
    (matchRule region subregion).2.2 ≤ 1/2 := by
  simp only [matchRule]
  split_ifs <;> norm_num

/-- The clamp `max lo (min hi t)` lands in `[lo, hi]` whenever `lo ≤ hi`. -/
theorem clamp_mem {lo hi t : ℝ} (h : lo ≤ hi) :
    lo ≤ max lo (min hi t) ∧ max lo (min hi t) ≤ hi :=
  ⟨le_max_left _ _, max_le h (min_le_left _ _)⟩

/-- The adjuster's output always lies inside the matched rule's clamp
interval, hence inside `[0.05, 0.5]`, for every real input value. -/
theorem applyRegionalCharacteristics_mem (x : ℝ) (region subregion : String) :
    ((matchRule region subregion).2.1 : ℝ) ≤
      applyRegionalCharacteristics x region subregion ∧
    applyRegionalCharacteristics x region subregion ≤
      ((matchRule region subregion).2.2 : ℝ) ∧
    (0.05 : ℝ) ≤ applyRegionalCharacteristics x region subregion ∧
    applyRegionalCharacteristics x region subregion ≤ (0.5 : ℝ) := by
  obtain ⟨h1, h2, h3⟩ := matchRule_bounds region subregion
  have hlo : ((5 : ℚ)/100 : ℝ) ≤ ((matchRule region subregion).2.1 : ℝ) := by
    exact_mod_cast h1
  have hle : ((matchRule region subregion).2.1 : ℝ) ≤
      ((matchRule region subregion).2.2 : ℝ) := by exact_mod_cast h2
  have hhi : ((matchRule region subregion).2.2 : ℝ) ≤ ((1 : ℚ)/2 : ℝ) := by
    exact_mod_cast h3
  obtain ⟨ha, hb⟩ :=
    clamp_mem (t := x * ((matchRule region subregion).1 : ℝ)) hle
  refine ⟨ha, hb, ?_, ?_⟩
  · calc (0.05 : ℝ) ≤ ((matchRule region subregion).2.1 : ℝ) := by
          refine le_trans (by norm_num) hlo
      _ ≤ _ := ha
  · calc applyRegionalCharacteristics x region subregion
        ≤ ((matchRule region subregion).2.2 : ℝ) := hb
      _ ≤ (0.5 : ℝ) := le_trans hhi (by norm_num)

/-! ## FallbackEstimator — `getRegionalSoilMoisture`

The request's `date` string is parsed with `new Date(date)`.  A parseable
`"YYYY-MM-DD"` date is represented by its components `DateRec` (with
`month` zero-based as returned by `getMonth()`); an unparseable string, an
Invalid Date whose every accessor is `NaN`, is represented by `none` in
`Option DateRec` (see the `JsNum` section below).

The source computes
`dayOfYear = Math.floor((dateObj.getTime() - new Date(y, 0, 0).getTime()) / 86400000)`;
in the UTC environment the function runs in, both timestamps are UTC
midnights, the quotient is exact, and the result is the ordinal day of the
date within its calendar year, which is what `dayOfYear` computes here. -/

/-- A parsed calendar date: `getFullYear()`, `getMonth()` (0-based),
`getDate()` (1-based). -/
structure DateRec where
  year : ℕ
  month : ℕ
  day : ℕ
  deriving DecidableEq

/-- Gregorian leap year, as used by `Date`. -/
def isLeap (y : ℕ) : Bool :=
  (y % 4 == 0 && y % 100 != 0) || y % 400 == 0

/-- Days in the months strictly before zero-based month `m`. -/
def daysBeforeMonth (m : ℕ) (leap : Bool) : ℕ :=
  let base := [0, 31, 59, 90, 120, 151, 181, 212, 243, 273, 304, 334].getD m 0
  if leap ∧ 2 ≤ m then base + 1 else base

/-- Ordinal day of the year (Jan 1 ↦ 1), the value of the source's
timestamp-difference `dayOfYear`. -/
def dayOfYear (d : DateRec) : ℕ :=
  daysBeforeMonth d.month (isLeap d.year) + d.day

/-- JavaScript `x % y` on numbers (truncated remainder); for the
nonnegative operands used by the pipeline it is `x - y * ⌊x / y⌋`. -/
def qmod (x y : ℚ) : ℚ :=
  x - y * ⌊x / y⌋

theorem qmod_eq_fract_mul (x y : ℚ) (hy : y ≠ 0) :
    qmod x y = y * Int.fract (x / y) := by
  unfold qmod Int.fract
  field_simp

theorem qmod_nonneg (x y : ℚ) (hy : 0 < y) : 0 ≤ qmod x y := by
  rw [qmod_eq_fract_mul x y hy.ne']
  exact mul_nonneg hy.le (Int.fract_nonneg _)

theorem qmod_lt (x y : ℚ) (hy : 0 < y) : qmod x y < y := by
  rw [qmod_eq_fract_mul x y hy.ne']
  calc y * Int.fract (x / y) < y * 1 :=
        (mul_lt_mul_left hy).2 (Int.fract_lt_one _)
    _ = y := mul_one y

/-- Model of `getRegionSeed(region, subregion)` (index.ts lines 232–235): character
code sum of the lowercased `` `${region}-${subregion}` ``. -/
def getRegionSeed (region subregion : String) : ℕ :=
  charCodeSum (jsLower (region ++ "-" ++ subregion))

/-- The fallback estimate before regional adjustment (index.ts lines
195–215): the seeded base plus the seasonal sine term.  Transcribed
line-by-line; the seeds are exact integers, the weighted combination and
base are exact rationals, and `Math.sin` is `Real.sin`. -/
noncomputable def fallbackPreAdjust
    (region subregion : String) (d : DateRec) (granuleId : String) : ℝ :=
  let granuleSeed : ℕ := charCodeSum granuleId
  let doy : ℕ := dayOfYear d
  let yearSeed : ℕ := d.year * 31
  let monthSeed : ℕ := d.month * 47
  let daySeed : ℕ := d.day * 13
  let dateSeedN : ℕ := (yearSeed + monthSeed + daySeed + doy) % 10000
  let regionSeedN : ℕ := getRegionSeed region subregion
  let combinedSeed : ℚ :=
    qmod ((granuleSeed : ℚ) * 0.2 + (dateSeedN : ℚ) * 0.6 +
      (regionSeedN : ℚ) * 0.2) 10000
  let baseMoisture : ℚ := combinedSeed / 10000 * 0.4 + 0.05
  (baseMoisture : ℝ) + Real.sin ((d.month : ℝ) * Real.pi / 6) * 0.1

/-- Model of `getRegionalSoilMoisture` on a parseable date: the pre-adjustment
estimate passed through `applyRegionalCharacteristics` (index.ts line 218). -/
noncomputable def getRegionalSoilMoistureValid
    (region subregion : String) (d : DateRec) (granuleId : String) : ℝ :=
  applyRegionalCharacteristics (fallbackPreAdjust region subregion d granuleId)
    region subregion

/-! Spec-side formulas of §4.4, written from the spec's words, for the
refinement comparison of the seed pipeline. -/

/-- Spec §4.4: `dateSeed = (year*31 + month_index*47 + day_of_month*13 + dayOfYear) mod 10000`. -/
def specDateSeed (d : DateRec) : ℕ :=
  (d.year * 31 + d.month * 47 + d.day * 13 + dayOfYear d) % 10000

/-- Spec §4.4: `combinedSeed = (granuleSeed*0.2 + dateSeed*0.6 + regionSeed*0.2) mod 10000`. -/
def specCombinedSeed (granuleSeed regionSeedN : ℕ) (d : DateRec) : ℚ :=
  qmod ((granuleSeed : ℚ) * 0.2 + (specDateSeed d : ℚ) * 0.6 +
    (regionSeedN : ℚ) * 0.2) 10000

/-- Spec §4.4: `base = (combinedSeed/10000)*0.4 + 0.05`. -/
def specBase (granuleSeed regionSeedN : ℕ) (d : DateRec) : ℚ :=
  specCombinedSeed granuleSeed regionSeedN d / 10000 * 0.4 + 0.05

theorem fallbackPreAdjust_eq_spec
    (region subregion : String) (d : DateRec) (granuleId : String) :
    fallbackPreAdjust region subregion d granuleId =
      ((specBase (charCodeSum granuleId) (getRegionSeed region subregion) d : ℚ) : ℝ)
        + Real.sin ((d.month : ℝ) * Real.pi / 6) * 0.1 := by
  unfold fallbackPreAdjust specBase specCombinedSeed specDateSeed
  rfl

/-- The rational base lies in `[0.05, 0.45)`. -/
theorem specBase_bounds (granuleSeed regionSeedN : ℕ) (d : DateRec) :
    (0.05 : ℚ) ≤ specBase granuleSeed regionSeedN d ∧
      specBase granuleSeed regionSeedN d < 0.45 := by
  unfold specBase
  have h0 : (0 : ℚ) ≤ specCombinedSeed granuleSeed regionSeedN d :=
    qmod_nonneg _ _ (by norm_num)
  have h1 : specCombinedSeed granuleSeed regionSeedN d < 10000 :=
    qmod_lt _ _ (by norm_num)
  constructor
  · nlinarith
  · nlinarith

/-- The pre-adjustment fallback value always lies in `[-0.05, 0.55]`:
the base is in `[0.05, 0.45)` and the seasonal term in `[-0.1, 0.1]`. -/
theorem fallbackPreAdjust_bounds
    (region subregion : String) (d : DateRec) (granuleId : String) :
    (-0.05 : ℝ) ≤ fallbackPreAdjust region subregion d granuleId ∧
      fallbackPreAdjust region subregion d granuleId ≤ (0.55 : ℝ) := by
  rw [fallbackPreAdjust_eq_spec]
  obtain ⟨hb0, hb1⟩ :=
    specBase_bounds (charCodeSum granuleId) (getRegionSeed region subregion) d
  have hb0' : ((0.05 : ℚ) : ℝ) ≤
      ((specBase (charCodeSum granuleId) (getRegionSeed region subregion) d : ℚ) : ℝ) := by
    exact_mod_cast hb0
  have hb1' : ((specBase (charCodeSum granuleId) (getRegionSeed region subregion) d : ℚ) : ℝ)
      ≤ ((0.45 : ℚ) : ℝ) := by exact_mod_cast hb1.le
  have hs0 : (-1 : ℝ) ≤ Real.sin ((d.month : ℝ) * Real.pi / 6) :=
    Real.neg_one_le_sin _
  have hs1 : Real.sin ((d.month : ℝ) * Real.pi / 6) ≤ 1 :=
    Real.sin_le_one _
  constructor
  · have : ((0.05 : ℚ) : ℝ) = (0.05 : ℝ) := by norm_num
    nlinarith
  · have : ((0.45 : ℚ) : ℝ) = (0.45 : ℝ) := by norm_num
    nlinarith

/-! ## NaN-aware JavaScript numbers

An unparseable request date gives `new Date(date)` an Invalid Date: every
accessor (`getTime`, `getFullYear`, `getMonth`, `getDate`) returns `NaN`,
and `NaN` propagates through `+`, `*`, `/`, `%`, `Math.floor`, `Math.sin`,
`Math.min` and `Math.max`.  `JsNum` models exactly this fragment (the
pipeline reaches no infinities and divides only by nonzero constants). -/

inductive JsNum where
  | nan : JsNum
  | num : ℝ → JsNum

noncomputable def jsAdd : JsNum → JsNum → JsNum
  | .num x, .num y => .num (x + y)
  | _, _ => .nan

noncomputable def jsMul : JsNum → JsNum → JsNum
  | .num x, .num y => .num (x * y)
  | _, _ => .nan

/-- JS division; only used with nonzero constant divisors, where it agrees
with real division. -/
noncomputable def jsDiv : JsNum → JsNum → JsNum
  | .num x, .num y => .num (x / y)
  | _, _ => .nan

/-- Truncation toward zero, the rounding of the JS `%` operator. -/
noncomputable def jsTrunc (r : ℝ) : ℤ :=
  if r < 0 then -⌊-r⌋ else ⌊r⌋

/-- JS `%` (truncated remainder); only used with positive constant
divisors. -/
noncomputable def jsMod : JsNum → JsNum → JsNum
  | .num x, .num y => .num (x - y * jsTrunc (x / y))
  | _, _ => .nan

noncomputable def jsMin : JsNum → JsNum → JsNum
  | .num x, .num y => .num (min x y)
  | _, _ => .nan

noncomputable def jsMax : JsNum → JsNum → JsNum
  | .num x, .num y => .num (max x y)
  | _, _ => .nan

/-- Model of `applyRegionalCharacteristics` in NaN-aware semantics: the matched
rule's `Math.max(lo, Math.min(hi, value * mult))`. -/
noncomputable def jsApplyRegional (n : JsNum) (region subregion : String) : JsNum :=
  let rule := matchRule region subregion
  jsMax (.num (rule.2.1 : ℝ)) (jsMin (.num (rule.2.2 : ℝ)) (jsMul n (.num (rule.1 : ℝ))))

theorem jsApplyRegional_nan (region subregion : String) :
    jsApplyRegional .nan region subregion = .nan := rfl

theorem jsApplyRegional_num (x : ℝ) (region subregion : String) :
    jsApplyRegional (.num x) region subregion =
      .num (applyRegionalCharacteristics x region subregion) := rfl

/-- Days from 1970-01-01 to the given civil date (proleptic Gregorian),
the value of `Date.UTC`/`getTime()` divided by 86 400 000. -/
def epochDays (dt : DateRec) : ℤ :=
  let m : ℕ := dt.month + 1
  let y : ℤ := if m ≤ 2 then (dt.year : ℤ) - 1 else (dt.year : ℤ)
  let era : ℤ := Int.fdiv y 400
  let yoe : ℤ := y - era * 400
  let mp : ℤ := ((m : ℤ) + 9) % 12
  let doy : ℤ := (153 * mp + 2) / 5 + (dt.day : ℤ) - 1
  let doe : ℤ := yoe * 365 + yoe / 4 - yoe / 100 + doy
  era * 146097 + doe - 719468

/-- Model of `dateObj.getTime()`: epoch milliseconds, `NaN` for an Invalid Date. -/
noncomputable def jsGetTime : Option DateRec → JsNum
  | none => .nan
  | some dt => .num ((epochDays dt * 86400000 : ℤ) : ℝ)

/-- Model of `granule.producer_granule_id || granule.id || ''` (index.ts line 195):
the granule identifier, or the empty string when no granule was
available. -/
def granuleIdOf : Option String → String
  | some s => s
  | none => ""

/-- The catch-block last resort (index.ts lines 226–227):
`0.2 + (new Date(date).getTime() % 1000) / 5000`, then the adjuster. -/
noncomputable def lastResortValue
    (date : Option DateRec) (region subregion : String) : JsNum :=
  jsApplyRegional
    (jsAdd (.num 0.2) (jsDiv (jsMod (jsGetTime date) (.num 1000)) (.num 5000)))
    region subregion

/-- Model of `getRegionalSoilMoisture(region, subregion, date, granule)`
(index.ts lines 185–229).  On a parseable date every intermediate value is
finite and the try-body returns the adjusted seeded estimate.  On an
unparseable date no exception is raised either: `getTime()`, `getMonth()`
etc. return `NaN`, so `dayOfYear`, every seed, the base and the seasonal
`Math.sin` term all evaluate to `NaN`, and the adjuster receives `NaN`. -/
noncomputable def getRegionalSoilMoistureJs (region subregion : String)
    (date : Option DateRec) (granule : Option String) : JsNum :=
  match date with
  | some d =>
      .num (getRegionalSoilMoistureValid region subregion d (granuleIdOf granule))
  | none => jsApplyRegional .nan region subregion

/-! ## BinaryMoistureExtractor — `processHDF5File`

The buffer is a byte list; `DataView.getUint8`/`getFloat32` accesses are
in bounds wherever the source performs them (the marker scan stops at
`byteLength - 4` and each float read is guarded by `offset + 4 <=
byteLength`), so `List.getD _ _ 0` is exact.  The `try/catch` wrappers
never fire: no statement in the loop can throw, which the total embedding
reflects.  IEEE-754 binary32 decoding is exact over `ℚ`, with `NaN` and
the infinities as explicit constructors (JS `NaN !== -9999` is `true`, but
`NaN > 0` is `false`, so non-finite decodes never pass the validity
test). -/

/-- The request bounding box `[minLon, minLat, maxLon, maxLat]`
(`bbox[0] .. bbox[3]`). -/
structure Bbox where
  minLon : ℚ
  minLat : ℚ
  maxLon : ℚ
  maxLat : ℚ
  deriving DecidableEq

/-- A decoded binary32 value. -/
inductive F32 where
  | finite : ℚ → F32
  | nan : F32
  | posInf : F32
  | negInf : F32
  deriving DecidableEq

/-- Model of `DataView.getFloat32(_, true)`: little-endian IEEE-754 binary32 from
four bytes (`b0` least significant). -/
def decodeFloat32 (b0 b1 b2 b3 : ℕ) : F32 :=
  let bits : ℕ := b0 + b1 * 256 + b2 * 65536 + b3 * 16777216
  let sign : ℕ := bits / 2 ^ 31
  let expo : ℕ := bits / 2 ^ 23 % 256
  let frac : ℕ := bits % 2 ^ 23
  if expo = 255 then
    if frac = 0 then (if sign = 0 then .posInf else .negInf) else .nan
  else
    let mag : ℚ :=
      if expo = 0 then (frac : ℚ) / 2 ^ 23 / 2 ^ 126
      else (1 + (frac : ℚ) / 2 ^ 23) * 2 ^ expo / 2 ^ 127
    .finite (if sign = 0 then mag else -mag)

/-- JS `value !== -9999` (`true` for `NaN` and the infinities). -/
def f32NeFill : F32 → Bool
  | .finite q => decide (q ≠ -9999)
  | _ => true

/-- JS `value > 0` (`false` for `NaN`). -/
def f32Pos : F32 → Bool
  | .finite q => decide (0 < q)
  | .posInf => true
  | _ => false

/-- JS `value < 1` (`false` for `NaN`). -/
def f32LtOne : F32 → Bool
  | .finite q => decide (q < 1)
  | .negInf => true
  | _ => false

/-- Validity test `value !== -9999 && value > 0 && value < 1` (index.ts line 142). -/
def isValidSample (v : F32) : Bool :=
  f32NeFill v && f32Pos v && f32LtOne v

/-- The rational carried by a valid sample (valid samples are finite). -/
def f32Val : F32 → ℚ
  | .finite q => q
  | _ => 0

/-- The 4-byte `"SMAP"` marker `0x53 0x4D 0x41 0x50` starts at offset `i`. -/
def markerAt (buf : List ℕ) (i : ℕ) : Bool :=
  decide (i + 4 ≤ buf.length) &&
    (buf.getD i 0 == 0x53) && (buf.getD (i + 1) 0 == 0x4D) &&
    (buf.getD (i + 2) 0 == 0x41) && (buf.getD (i + 3) 0 == 0x50)

/-- The marker scan (index.ts lines 114–127): first `i` with
`i < byteLength - 4` whose four bytes spell `"SMAP"`.  For `byteLength < 4`
the JS bound is negative and the loop body never runs; `ℕ` subtraction
gives the same empty range. -/
def findMarker (buf : List ℕ) : Option ℕ :=
  (List.range (buf.length - 4)).find? (fun i => markerAt buf i)

/-- Model of `numValues = Math.min(1000, Math.floor((byteLength - dataOffset) / 4))`
(index.ts line 136); negative when the data offset lies past the buffer. -/
def numValuesOf (len dataOffset : ℕ) : ℤ :=
  min 1000 (Int.fdiv ((len : ℤ) - (dataOffset : ℤ)) 4)

/-- One float read at `offset` (little-endian). -/
def readF32 (buf : List ℕ) (offset : ℕ) : F32 :=
  decodeFloat32 (buf.getD offset 0) (buf.getD (offset + 1) 0)
    (buf.getD (offset + 2) 0) (buf.getD (offset + 3) 0)

/-- Loop body for index `i` (index.ts lines 138–166): bounds guard,
decode, fill/range validity test, then the synthetic-position geographic
filter `lat/lonProxy` derived from `filePosition = i / numValues`. -/
def sampleAt (buf : List ℕ) (bbox : Bbox) (dataOffset : ℕ) (nv : ℤ) (i : ℕ) :
    Option ℚ :=
  let offset := dataOffset + i * 4
  if offset + 4 ≤ buf.length then
    let v := readF32 buf offset
    if isValidSample v then
      let t : ℚ := (i : ℚ) / (nv : ℚ)
      let latProxy := bbox.minLat + (bbox.maxLat - bbox.minLat) * t
      let lonProxy := bbox.minLon + (bbox.maxLon - bbox.minLon) * t
      if bbox.minLat ≤ latProxy ∧ latProxy ≤ bbox.maxLat ∧
          bbox.minLon ≤ lonProxy ∧ lonProxy ≤ bbox.maxLon then
        some (f32Val v)
      else none
    else none
  else none

/-- Record `ExtractionResult`: the mean and the accepted samples. -/
structure ExtractionResult where
  average : ℚ
  validValues : List ℚ
  deriving DecidableEq

/-- Model of `validValues.reduce((sum, val) => sum + val, 0)`. -/
def jsSum (l : List ℚ) : ℚ :=
  l.foldl (· + ·) 0

/-- Model of `processHDF5File(buffer, bbox)` (index.ts lines 95–182): marker scan,
header skip of 1000, float decoding loop, empty check, mean.  `none`
models the `null` "no usable data" return. -/
def processHDF5File (buf : List ℕ) (bbox : Bbox) : Option ExtractionResult :=
  match findMarker buf with
  | none => none
  | some m =>
      let dataOffset := m + 1000
      let nv : ℤ := numValuesOf buf.length dataOffset
      let validValues :=
        (List.range nv.toNat).filterMap (sampleAt buf bbox dataOffset nv)
      if validValues.length = 0 then none
      else some ⟨jsSum validValues / validValues.length, validValues⟩

/-- The same extraction with the geographic filter removed: a value is
accepted exactly when it passes the fill-value/range test. -/
def sampleAtNoGeo (buf : List ℕ) (dataOffset : ℕ) (i : ℕ) : Option ℚ :=
  let offset := dataOffset + i * 4
  if offset + 4 ≤ buf.length then
    let v := readF32 buf offset
    if isValidSample v then some (f32Val v) else none
  else none

/-- Variant of `processHDF5File` with the geographic filter removed. -/
def processNoGeoFilter (buf : List ℕ) : Option ExtractionResult :=
  match findMarker buf with
  | none => none
  | some m =>
      let dataOffset := m + 1000
      let nv : ℤ := numValuesOf buf.length dataOffset
      let validValues :=
        (List.range nv.toNat).filterMap (sampleAtNoGeo buf dataOffset)
      if validValues.length = 0 then none
      else some ⟨jsSum validValues / validValues.length, validValues⟩

/-- Modelled from the spec: the stage composition (the caller that chains
extractor, fallback and adjuster) is not under `src/` — the checked-in
edge function delegates the analysis to an external backend.  Per spec §2
and the §3 invariant, the satellite mean or, when extraction yields no
data, the fallback estimate is delivered to RegionalClimateAdjuster; the
fallback applies the adjuster internally (index.ts line 218), the
satellite mean is adjusted here. -/
noncomputable def pipelineFinal (buf : List ℕ) (bbox : Bbox)
    (region subregion : String) (d : DateRec) (granule : Option String) : ℝ :=
  match processHDF5File buf bbox with
  | some r => applyRegionalCharacteristics (r.average : ℝ) region subregion
  | none => getRegionalSoilMoistureValid region subregion d (granuleIdOf granule)

/-! ## Extractor lemmas -/

theorem findMarker_eq_none {buf : List ℕ}
    (h : ∀ i, i < buf.length - 4 → markerAt buf i = false) :
    findMarker buf = none := by
  unfold findMarker
  refine List.find?_eq_none.mpr ?_
  intro i hi
  rw [List.mem_range] at hi
  simp [h i hi]

theorem processHDF5File_of_no_marker {buf : List ℕ} (bbox : Bbox)
    (h : findMarker buf = none) : processHDF5File buf bbox = none := by
  unfold processHDF5File
  rw [h]

/-- A sample that passes the validity test is finite, not the fill value,
and strictly between 0 and 1. -/
theorem isValidSample_val {w : F32} (h : isValidSample w = true) :
    f32Val w ≠ -9999 ∧ 0 < f32Val w ∧ f32Val w < 1 := by
  cases w with
  | finite q =>
      simp only [isValidSample, f32NeFill, f32Pos, f32LtOne, Bool.and_eq_true,
        decide_eq_true_eq] at h
      exact ⟨h.1.1, h.1.2, h.2⟩
  | nan => simp [isValidSample, f32NeFill, f32Pos, f32LtOne] at h
  | posInf => simp [isValidSample, f32NeFill, f32Pos, f32LtOne] at h
  | negInf => simp [isValidSample, f32NeFill, f32Pos, f32LtOne] at h

/-- Every value the loop body accepts satisfies the fill/range test. -/
theorem sampleAt_valid {buf : List ℕ} {bbox : Bbox} {off : ℕ} {nv : ℤ}
    {i : ℕ} {v : ℚ} (h : sampleAt buf bbox off nv i = some v) :
    v ≠ -9999 ∧ 0 < v ∧ v < 1 := by
  unfold sampleAt at h
  dsimp only at h
  split at h
  · split at h
    · split at h
      · obtain rfl := Option.some.inj h
        next hvalid _ => exact isValidSample_val hvalid
      · exact absurd h (by simp)
    · exact absurd h (by simp)
  · exact absurd h (by simp)

theorem jsSum_eq_sum (l : List ℚ) : jsSum l = l.sum := by
  unfold jsSum
  exact List.sum_eq_foldl.symm

theorem list_sum_le_length {l : List ℚ} (h : ∀ v ∈ l, v ≤ 1) :
    l.sum ≤ l.length := by
  induction l with
  | nil => simp
  | cons a t ih =>
      simp only [List.sum_cons, List.length_cons]
      have ha : a ≤ 1 := h a (by simp)
      have ht : t.sum ≤ t.length := ih (fun v hv => h v (by simp [hv]))
      push_cast
      linarith

/-- The mean of a nonempty list of values in `(0, 1)` lies in `(0, 1)`. -/
theorem mean_bounds {l : List ℚ} (hne : l ≠ [])
    (h : ∀ v ∈ l, 0 < v ∧ v < 1) :
    0 < l.sum / l.length ∧ l.sum / l.length < 1 := by
  have hlen : 0 < (l.length : ℚ) := by
    have := List.length_pos.mpr hne
    exact_mod_cast this
  have hpos : 0 < l.sum := List.sum_pos l (fun v hv => (h v hv).1) hne
  have hlt : l.sum < l.length := by
    rcases l with _ | ⟨a, t⟩
    · exact absurd rfl hne
    · simp only [List.sum_cons, List.length_cons]
      have ha : a < 1 := (h a (by simp)).2
      have ht : t.sum ≤ t.length :=
        list_sum_le_length (fun v hv => (h v (by simp [hv])).2.le)
      push_cast
      linarith
  exact ⟨div_pos hpos hlen, (div_lt_one hlen).mpr hlt⟩

/-! ## Claims about the extractor -/

/-- C6: `processHDF5File` never raises on any buffer — the embedding is a
total function — and on every buffer that contains no occurrence of the
4-byte `"SMAP"` marker (in particular every buffer shorter than 4 bytes)
it returns the no-data outcome `none` (`sampleCount = 0`). -/
theorem claim6_no_marker_no_data (buf : List ℕ) (bbox : Bbox)
    (h : ∀ i, i < buf.length → markerAt buf i = false) :
    processHDF5File buf bbox = none := by
  refine processHDF5File_of_no_marker bbox (findMarker_eq_none ?_)
  intro i hi
  exact h i (lt_of_lt_of_le hi (Nat.sub_le _ _))

theorem claim6_witness : processHDF5File [1, 2, 3, 4, 5] ⟨0, 0, 1, 1⟩ = none :=
  claim6_no_marker_no_data [1, 2, 3, 4, 5] ⟨0, 0, 1, 1⟩ (by decide)

/-- C9: the marker scan runs `i` over `[0, byteLength − 4)` only, so a
buffer whose sole `"SMAP"` occurrence starts at `byteLength − 4` (its last
four bytes) is reported marker-not-found and extraction returns the
no-data outcome. -/
theorem claim9_marker_at_tail_missed (buf : List ℕ) (bbox : Bbox)
    (_hmark : markerAt buf (buf.length - 4) = true)
    (hsole : ∀ i, i < buf.length → i ≠ buf.length - 4 → markerAt buf i = false) :
    processHDF5File buf bbox = none := by
  refine processHDF5File_of_no_marker bbox (findMarker_eq_none ?_)
  intro i hi
  exact hsole i (lt_of_lt_of_le hi (Nat.sub_le _ _)) (Nat.ne_of_lt hi)

theorem claim9_witness :
    processHDF5File [9, 9, 9, 9, 0x53, 0x4D, 0x41, 0x50] ⟨0, 0, 1, 1⟩ = none :=
  claim9_marker_at_tail_missed [9, 9, 9, 9, 0x53, 0x4D, 0x41, 0x50] ⟨0, 0, 1, 1⟩
    (by decide) (by decide)

theorem extraction_post {VV : List ℚ}
    (hvalid : ∀ v ∈ VV, v ≠ -9999 ∧ 0 < v ∧ v < 1) (hne : VV.length ≠ 0) :
    (∀ v ∈ VV, v ≠ -9999 ∧ 0 < v ∧ v < 1) ∧
      jsSum VV / (VV.length : ℚ) ≠ -9999 ∧ 0 < jsSum VV / (VV.length : ℚ) ∧
      jsSum VV / (VV.length : ℚ) < 1 := by
  have hne' : VV ≠ [] := fun hnil => hne (by simp [hnil])
  obtain ⟨hp, hl⟩ :=
    mean_bounds hne' (fun v hv => ⟨(hvalid v hv).2.1, (hvalid v hv).2.2⟩)
  rw [jsSum_eq_sum]
  refine ⟨hvalid, ?_, hp, hl⟩
  intro heq
  rw [heq] at hp
  norm_num at hp

/-- C7: every sample in the accepted list of a successful extraction — and
the returned mean — differs from the fill value `−9999` and lies strictly
between 0 and 1. -/
theorem claim7_samples_valid (buf : List ℕ) (bbox : Bbox)
    (r : ExtractionResult) (h : processHDF5File buf bbox = some r) :
    (∀ v ∈ r.validValues, v ≠ -9999 ∧ 0 < v ∧ v < 1) ∧
      r.average ≠ -9999 ∧ 0 < r.average ∧ r.average < 1 := by
  unfold processHDF5File at h
  cases hm : findMarker buf with
  | none => rw [hm] at h; exact absurd h (by simp)
  | some m =>
      rw [hm] at h
      dsimp only at h
      split at h
      · exact absurd h (by simp)
      · next hz =>
          obtain rfl := Option.some.inj h
          exact extraction_post
            (fun v hv => by
              rw [List.mem_filterMap] at hv
              obtain ⟨i, _, hs⟩ := hv
              exact sampleAt_valid hs)
            hz

/-- A buffer holding the marker at offset 0, a 996-byte pad, and the
little-endian binary32 encoding of `0.5` at the data offset 1000. -/
def wBuf : List ℕ :=
  [0x53, 0x4D, 0x41, 0x50] ++ List.replicate 996 0 ++ [0, 0, 0, 63]

def wBox : Bbox := ⟨0, 0, 1, 1⟩

set_option maxRecDepth 100000 in
theorem claim7_witness :
    ((1 : ℚ)/2 ≠ -9999 ∧ (0 : ℚ) < 1/2 ∧ (1 : ℚ)/2 < 1) := by
  have h := claim7_samples_valid wBuf wBox ⟨1/2, [1/2]⟩
    (by with_unfolding_all decide)
  exact h.2

/-- The synthetic geographic filter accepts every index below `numValues`
whenever the bounding box is well-formed, so the loop body coincides with
the filter-free loop body. -/
theorem sampleAt_eq_noGeo {buf : List ℕ} {bbox : Bbox} {off : ℕ} {nv : ℤ}
    {i : ℕ} (hlon : bbox.minLon ≤ bbox.maxLon)
    (hlat : bbox.minLat ≤ bbox.maxLat) (hi : (i : ℤ) < nv) :
    sampleAt buf bbox off nv i = sampleAtNoGeo buf off i := by
  have hnvZ : (0 : ℤ) < nv := lt_of_le_of_lt (Int.natCast_nonneg i) hi
  have hnv : (0 : ℚ) < (nv : ℚ) := by exact_mod_cast hnvZ
  have ht0 : (0 : ℚ) ≤ (i : ℚ) / (nv : ℚ) := by positivity
  have ht1 : (i : ℚ) / (nv : ℚ) ≤ 1 := by
    rw [div_le_one hnv]
    have : (i : ℤ) ≤ nv := hi.le
    exact_mod_cast this
  unfold sampleAt sampleAtNoGeo
  dsimp only
  split_ifs with hbound hvalid hgeo
  · rfl
  · exfalso
    apply hgeo
    have hlat' := mul_le_of_le_one_right (sub_nonneg.mpr hlat) ht1
    have hlat0 := mul_nonneg (sub_nonneg.mpr hlat) ht0
    have hlon' := mul_le_of_le_one_right (sub_nonneg.mpr hlon) ht1
    have hlon0 := mul_nonneg (sub_nonneg.mpr hlon) ht0
    refine ⟨by linarith, by linarith, by linarith, by linarith⟩
  · rfl
  · rfl

/-- C5: for a well-formed bounding box the geographic filter is a
structural no-op — extraction equals the filter-free extraction, hence is
identical for any two well-formed bounding boxes. -/
theorem claim5_geo_filter_noop (buf : List ℕ) (bbox : Bbox)
    (hlon : bbox.minLon ≤ bbox.maxLon) (hlat : bbox.minLat ≤ bbox.maxLat) :
    processHDF5File buf bbox = processNoGeoFilter buf := by
  unfold processHDF5File processNoGeoFilter
  cases findMarker buf with
  | none => rfl
  | some m =>
      dsimp only
      have hcong : (List.range (numValuesOf buf.length (m + 1000)).toNat).filterMap
          (sampleAt buf bbox (m + 1000) (numValuesOf buf.length (m + 1000))) =
          (List.range (numValuesOf buf.length (m + 1000)).toNat).filterMap
          (sampleAtNoGeo buf (m + 1000)) := by
        refine List.filterMap_congr ?_
        intro i hi
        rw [List.mem_range] at hi
        refine sampleAt_eq_noGeo hlon hlat ?_
        omega
      rw [hcong]

theorem claim5_witness : processHDF5File wBuf wBox = processNoGeoFilter wBuf :=
  claim5_geo_filter_noop wBuf wBox (by norm_num [wBox]) (by norm_num [wBox])

/-! ## Claims about the fallback estimator and the adjuster -/

/-- C8: on every parseable date the fallback estimator computes exactly
the spec's seed pipeline — `dateSeed`, `combinedSeed` and `base` as in
§4.4 (`specDateSeed`, `specCombinedSeed`, `specBase`), plus the seasonal
term `sin(monthIndex·π/6)·0.1` with the zero-based month index — before
the regional adjuster. -/
theorem claim8_seed_formulas (region subregion : String) (d : DateRec)
    (granuleId : String) :
    getRegionalSoilMoistureValid region subregion d granuleId =
      applyRegionalCharacteristics
        (((specBase (charCodeSum granuleId) (getRegionSeed region subregion) d : ℚ) : ℝ)
          + Real.sin ((d.month : ℝ) * Real.pi / 6) * 0.1) region subregion := by
  unfold getRegionalSoilMoistureValid
  rw [fallbackPreAdjust_eq_spec]

/-- C2: the fallback estimator is deterministic — it is a pure function of
`(region, subregion, date, granule)` with no random source or mutable
state, so any two runs on identical inputs (identical or absent granule
identifier in both) return bit-identical results. -/
theorem claim2_deterministic (region subregion : String)
    (date : Option DateRec) (granule : Option String) (r1 r2 : JsNum)
    (h1 : r1 = getRegionalSoilMoistureJs region subregion date granule)
    (h2 : r2 = getRegionalSoilMoistureJs region subregion date granule) :
    r1 = r2 :=
  h1.trans h2.symm

theorem claim2_witness :
    getRegionalSoilMoistureJs "India" "Punjab" (some ⟨2025, 6, 1⟩) none =
      getRegionalSoilMoistureJs "India" "Punjab" (some ⟨2025, 6, 1⟩) none :=
  claim2_deterministic "India" "Punjab" (some ⟨2025, 6, 1⟩) none _ _ rfl rfl

/-- C4: with a parseable date and no granule available, the estimator runs
the normal seeded path with `granuleSeed = 0` — the result is the adjusted
seeded base (a function of date and region only), not the catch-block
last-resort value. -/
theorem claim4_no_granule_normal_path (region subregion : String) (d : DateRec) :
    getRegionalSoilMoistureJs region subregion (some d) none =
      JsNum.num (applyRegionalCharacteristics
        (((specBase 0 (getRegionSeed region subregion) d : ℚ) : ℝ)
          + Real.sin ((d.month : ℝ) * Real.pi / 6) * 0.1) region subregion) := by
  unfold getRegionalSoilMoistureJs
  dsimp only [granuleIdOf]
  unfold getRegionalSoilMoistureValid
  rw [fallbackPreAdjust_eq_spec]
  rw [show charCodeSum "" = 0 from rfl]

/-- C10: on an unparseable date no exception is raised and the returned
value is `NaN`: the catch-block formula `0.2 + (NaN % 1000)/5000`
evaluates to `NaN`, the adjuster's `Math.max`/`Math.min` clamps propagate
`NaN`, and the estimator itself returns `NaN`, which is no real number at
all and hence lies in no clamp interval. -/
theorem claim10_invalid_date_nan (region subregion : String)
    (granule : Option String) :
    jsAdd (.num 0.2) (jsDiv (jsMod (jsGetTime none) (.num 1000)) (.num 5000))
        = .nan ∧
      lastResortValue none region subregion = .nan ∧
      jsApplyRegional .nan region subregion = .nan ∧
      getRegionalSoilMoistureJs region subregion none granule = .nan ∧
      (∀ x : ℝ, getRegionalSoilMoistureJs region subregion none granule ≠ .num x) := by
  refine ⟨rfl, rfl, rfl, rfl, ?_⟩
  intro x h
  exact JsNum.noConfusion h

/-- The granule identifier used by the C3 counterexample: one UTF-16 unit
with character code 39306. -/
def gStr3 : String := String.mk [Char.ofNat 39306]

/-- C3 counterexample: at region `"a"`, subregion `"a"`, date 2025-10-01
(zero-based month index 9) and a granule identifier with character-code
sum 39306, the weighted seeds sum to exactly 10000, so `combinedSeed = 0`
and the base is `0.05`; the seasonal term is `sin(9π/6)·0.1 = −0.1`, so
the value delivered to the adjuster is `−0.05`, outside `[0, 1]`. -/
theorem claim3_counterexample :
    ¬ ((0 : ℝ) ≤ fallbackPreAdjust "a" "a" ⟨2025, 9, 1⟩ gStr3 ∧
        fallbackPreAdjust "a" "a" ⟨2025, 9, 1⟩ gStr3 ≤ 1) := by
  have hval : fallbackPreAdjust "a" "a" ⟨2025, 9, 1⟩ gStr3 = -(1/20 : ℝ) := by
    rw [fallbackPreAdjust_eq_spec]
    have hbase : specBase (charCodeSum gStr3) (getRegionSeed "a" "a")
        ⟨2025, 9, 1⟩ = 1/20 := by
      with_unfolding_all decide
    rw [hbase]
    have harg : (((⟨2025, 9, 1⟩ : DateRec).month : ℝ) * Real.pi / 6) =
        Real.pi + Real.pi / 2 := by
      show ((9 : ℕ) : ℝ) * Real.pi / 6 = Real.pi + Real.pi / 2
      push_cast
      ring
    rw [harg, Real.sin_add, Real.sin_pi, Real.cos_pi, Real.sin_pi_div_two,
      Real.cos_pi_div_two]
    norm_num
  rw [hval]
  norm_num

/-- C3 (amended): the estimate delivered to the adjuster on the fallback
path lies in `[−0.05, 0.55]` — the seeded base lies in `[0.05, 0.45)` and
the seasonal sine term in `[−0.1, 0.1]`, and the lower end is attained
below 0 (see the counterexample), so `[0, 1]` does not hold. -/
theorem claim3_value_range (region subregion : String) (d : DateRec)
    (granuleId : String) :
    (-0.05 : ℝ) ≤ fallbackPreAdjust region subregion d granuleId ∧
      fallbackPreAdjust region subregion d granuleId ≤ (0.55 : ℝ) :=
  fallbackPreAdjust_bounds region subregion d granuleId

/-- C1: for every request with a parseable date (and any buffer and
bounding box), the final pipeline value lies within the matched rule's
clamp interval — `[0.05, 0.45]` when no region-specific rule matches — and
in particular always within `[0.05, 0.5]`. -/
theorem claim1_final_in_clamp (buf : List ℕ) (bbox : Bbox)
    (region subregion : String) (d : DateRec) (granule : Option String) :
    ((matchRule region subregion).2.1 : ℝ) ≤
        pipelineFinal buf bbox region subregion d granule ∧
      pipelineFinal buf bbox region subregion d granule ≤
        ((matchRule region subregion).2.2 : ℝ) ∧
      (0.05 : ℝ) ≤ pipelineFinal buf bbox region subregion d granule ∧
      pipelineFinal buf bbox region subregion d granule ≤ (0.5 : ℝ) := by
  unfold pipelineFinal
  cases processHDF5File buf bbox with
  | some r => exact applyRegionalCharacteristics_mem _ region subregion
  | none =>
      unfold getRegionalSoilMoistureValid
      exact applyRegionalCharacteristics_mem _ region subregion

end Agrisat
